import Mathlib

/-! Verification development for the personalization scoring engine of the
Chintan news backend (`src/backend/server.py`): the affinity aggregator
(`_get_user_affinity_scores`), its two cache backends, the pure article scorer
(`_score_article`), the feed assembler (`get_articles`), relevance-feedback
submission (`submit_relevance_feedback`) and poll voting (`vote_poll`).

Modelling conventions:
* Python floats are modelled as `ℚ`; all arithmetic in the engine is exact.
* Timestamps are epoch seconds (`Int`); datetimes that may be missing or
  unparsable are `Option Int`.
* A Python falsy/missing `category` (empty string or absent) is modelled as
  the empty string, matching the `if not cat` guards of the source.
* Mongo collections are Lean lists in insertion order; `find(filter)` is
  `List.filter`, `find_one` is `List.find?`, and `.to_list(n)` is `List.take n`.
  Documents are assumed unique per their declared id key (the data model keys
  every collection by an id), so an `$in`-restricted lookup map is embedded as
  a plain `find?` over the collection.
* Python dicts are association lists in insertion order; writing a key that is
  already present replaces the value in place, a new key is appended.
* `random.random() < 0.20` is an injected boolean (the outcome of the draw),
  and the per-candidate draws of the feed path are a function `Nat → Bool`
  indexed by candidate position.
* Python's stable sorts (`list.sort(key=..., reverse=True)` and the Mongo sort
  by `published_at` descending) are embedded as `List.insertionSort` with the
  corresponding total preorder, which is a stable sort. -/

namespace Chintan

/-- An article document (fields used by the scoring engine). -/
structure ArticleDoc where
  article_id : String
  category : String
  subcategory : String
  is_developing : Bool
  published_at : Option Int
  reading_time_sec : ℚ
  deriving DecidableEq

/-- A reading-history document. -/
structure HistoryDoc where
  user_id : String
  article_id : String
  time_spent : ℚ
  completed : Bool
  deriving DecidableEq

/-- A comment document (fields used by the aggregator). -/
structure CommentDoc where
  user_id : String
  article_id : String
  deriving DecidableEq

/-- A poll-vote document. -/
structure PollVoteDoc where
  user_id : String
  poll_id : String
  choice : String
  deriving DecidableEq

/-- A poll document. `article_id = ""` models a missing/falsy article id. -/
structure PollDoc where
  poll_id : String
  article_id : String
  created_at : Option Int
  options : List String
  votes : List (String × Int)
  deriving DecidableEq

/-- An article-like document. -/
structure LikeDoc where
  user_id : String
  article_id : String
  deriving DecidableEq

/-- A relevance-feedback document. -/
structure FeedbackDoc where
  user_id : String
  article_id : String
  is_relevant : Bool
  deriving DecidableEq

/-- A user document (fields used by the feed path). -/
structure UserDoc where
  user_id : String
  interests : List String
  deriving DecidableEq

/-- The document store: the collections consumed by the scoring engine. -/
structure Store where
  articles : List ArticleDoc
  reading_history : List HistoryDoc
  comments : List CommentDoc
  poll_votes : List PollVoteDoc
  polls : List PollDoc
  article_likes : List LikeDoc
  relevance_feedback : List FeedbackDoc
  deriving DecidableEq

/-- Write a key into an association list with Python-dict semantics: replace
in place when the key is present, append otherwise. -/
def setk {α : Type} : List (String × α) → String → α → List (String × α)
  | [], k, v => [(k, v)]
  | p :: rest, k, v => if p.1 == k then (k, v) :: rest else p :: setk rest k v

/-- The five per-category signal maps of an affinity profile. -/
structure Scores where
  completion : List (String × ℚ)
  engagement : List (String × ℚ)
  comments : List (String × ℚ)
  poll_votes : List (String × ℚ)
  likes : List (String × ℚ)
  deriving DecidableEq

/-- The all-empty profile returned for a user with no reading history. -/
def emptyScores : Scores := ⟨[], [], [], [], []⟩

/-- `db.articles` point lookup by `article_id`. -/
def findArticle (st : Store) (aid : String) : Option ArticleDoc :=
  st.articles.find? (fun a => a.article_id == aid)

/-- The user's reading-history query of `_get_user_affinity_scores`
(`db.reading_history.find({"user_id": user_id}).to_list(1000)`). -/
def userHistory (st : Store) (uid : String) : List HistoryDoc :=
  (st.reading_history.filter (fun h => h.user_id == uid)).take 1000

/-- One step of the completion/engagement statistics loop: the accumulator is
the pair of `completion_stats` (per category: total, completed) and
`engagement_stats` (per category: total_ratio, count). -/
def statsStep (st : Store) :
    (List (String × Nat × Nat) × List (String × ℚ × Nat)) → HistoryDoc →
    List (String × Nat × Nat) × List (String × ℚ × Nat) :=
  fun acc h =>
    match findArticle st h.article_id with
    | none => acc
    | some meta =>
      if meta.category == "" then acc
      else
        let prev := (acc.1.lookup meta.category).getD (0, 0)
        let cs := setk acc.1 meta.category
          (prev.1 + 1, prev.2 + (if h.completed then 1 else 0))
        let es :=
          if 0 < meta.reading_time_sec then
            let frac := min (h.time_spent / meta.reading_time_sec) 1
            let pe := (acc.2.lookup meta.category).getD (0, 0)
            setk acc.2 meta.category (pe.1 + frac, pe.2 + 1)
          else acc.2
        (cs, es)

/-- The completion/engagement statistics accumulated over a history. -/
def compEngStats (st : Store) (history : List HistoryDoc) :
    List (String × Nat × Nat) × List (String × ℚ × Nat) :=
  history.foldl (statsStep st) ([], [])

/-- `completion_scores`: per category `(completed / total) * 20` over the
stats entries with positive total. -/
def completionScores (cs : List (String × Nat × Nat)) : List (String × ℚ) :=
  cs.filterMap (fun p =>
    if 0 < p.2.1 then some (p.1, ((p.2.2 : ℚ) / (p.2.1 : ℚ)) * 20) else none)

/-- `engagement_scores`: per category `(total_ratio / count) * 20` over the
stats entries with positive count. -/
def engagementScores (es : List (String × ℚ × Nat)) : List (String × ℚ) :=
  es.filterMap (fun p =>
    if 0 < p.2.2 then some (p.1, (p.2.1 / (p.2.2 : ℚ)) * 20) else none)

/-- The user's comments query
(`db.comments.find({"user_id": user_id}).to_list(5000)`). -/
def userComments (st : Store) (uid : String) : List CommentDoc :=
  (st.comments.filter (fun c => c.user_id == uid)).take 5000

/-- `comment_article_counts`: number of the user's comments per article id. -/
def commentArticleCounts (cdocs : List CommentDoc) : List (String × Nat) :=
  cdocs.foldl
    (fun m c => setk m c.article_id ((m.lookup c.article_id).getD 0 + 1)) []

/-- The per-category comment scores from the per-article comment counts: for
each commented article with a category, the per-article value is `10` when the
user commented `3+` times on that article and `count * 3` otherwise, and the
per-category score is the `max` of the per-article values.  (When there are no
comments the `$in` query is skipped in the source; the filter below is then
empty, which is equivalent.) -/
def commentScoresFrom (counts : List (String × Nat))
    (articles : List ArticleDoc) : List (String × ℚ) :=
  let cmeta := articles.filter (fun a => (counts.lookup a.article_id).isSome)
  cmeta.foldl
    (fun m a =>
      if a.category == "" then m
      else
        let count := (counts.lookup a.article_id).getD 0
        setk m a.category
          (max ((m.lookup a.category).getD 0)
            (if 3 ≤ count then 10 else (count : ℚ) * 3)))
    []

/-- The comments signal of `_get_user_affinity_scores`. -/
def commentScores (st : Store) (uid : String) : List (String × ℚ) :=
  commentScoresFrom (commentArticleCounts (userComments st uid)) st.articles

/-- Mark every category appearing in a list of articles with the flat score
`5.0` (the shape of both the poll-vote and the like signal). -/
def flatFive (arts : List ArticleDoc) : List (String × ℚ) :=
  arts.foldl (fun m a => if a.category == "" then m else setk m a.category 5) []

/-- The poll-vote signal: `5.0` for each category of an article that has a
poll the user voted on.  (The empty-guards of the source collapse to empty
filters here.) -/
def pollVoteScores (st : Store) (uid : String) : List (String × ℚ) :=
  let vdocs := (st.poll_votes.filter (fun v => v.user_id == uid)).take 5000
  let pmeta := st.polls.filter (fun p => vdocs.any (fun v => v.poll_id == p.poll_id))
  let votedArtIds := pmeta.filterMap
    (fun p => if p.article_id == "" then none else some p.article_id)
  let vmeta := st.articles.filter (fun a => votedArtIds.contains a.article_id)
  flatFive vmeta

/-- The likes signal: `5.0` for each category the user has liked an article
in. -/
def likeScores (st : Store) (uid : String) : List (String × ℚ) :=
  let ldocs := (st.article_likes.filter (fun d => d.user_id == uid)).take 5000
  let lmeta := st.articles.filter
    (fun a => ldocs.any (fun d => d.article_id == a.article_id))
  flatFive lmeta

/-- The affinity aggregator: the computation part of
`_get_user_affinity_scores` (after a cache miss).  A user with no reading
history gets the all-empty profile from an early return. -/
def computeAffinity (st : Store) (uid : String) : Scores :=
  let history := userHistory st uid
  if history.isEmpty then emptyScores
  else
    let stats := compEngStats st history
    { completion := completionScores stats.1
      engagement := engagementScores stats.2
      comments := commentScores st uid
      poll_votes := pollVoteScores st uid
      likes := likeScores st uid }

/-- Modelled from the spec: the aggregator as the spec describes it, with each
signal computed over the user's full history — no `.to_list` truncation limits
(`1000` for reading history, `5000` for comments/poll votes/likes) and no
early return that skips the comment/vote/like signals.  Used to compare the
source's bounded computation against the spec's unbounded description. -/
def computeAffinityNoLimit (st : Store) (uid : String) : Scores :=
  let history := st.reading_history.filter (fun h => h.user_id == uid)
  let stats := compEngStats st history
  let cscores := commentScoresFrom
    (commentArticleCounts (st.comments.filter (fun c => c.user_id == uid)))
    st.articles
  let vdocs := st.poll_votes.filter (fun v => v.user_id == uid)
  let pmeta := st.polls.filter (fun p => vdocs.any (fun v => v.poll_id == p.poll_id))
  let votedArtIds := pmeta.filterMap
    (fun p => if p.article_id == "" then none else some p.article_id)
  let vmeta := st.articles.filter (fun a => votedArtIds.contains a.article_id)
  let vscores := flatFive vmeta
  let ldocs := st.article_likes.filter (fun d => d.user_id == uid)
  let lmeta := st.articles.filter
    (fun a => ldocs.any (fun d => d.article_id == a.article_id))
  let lscores := flatFive lmeta
  { completion := completionScores stats.1
    engagement := engagementScores stats.2
    comments := cscores
    poll_votes := vscores
    likes := lscores }

/-- Signal 5 of `_score_article`: the freshness bonus, `+10` when the age in
hours is at most 6, `+5` when at most 24, else `0`; a missing/unparsable
publication time gets no bonus. -/
def freshnessBonus (published_at : Option Int) (now : Int) : ℚ :=
  match published_at with
  | none => 0
  | some t =>
    let age_hours : ℚ := ((now - t : Int) : ℚ) / 3600
    if age_hours ≤ 6 then 10 else if age_hours ≤ 24 then 5 else 0

/-- Signal 4 of `_score_article`: the relevance-feedback adjustment for the
article's category. -/
def relevanceAdjustment (relevance : List (String × ℚ)) (cat : String) : ℚ :=
  match relevance.lookup cat with
  | some avg => if 1/2 < avg then 10 else if avg < 3/10 then -10 else 0
  | none => 0

/-- The pure article scorer `_score_article`.  `wildcard` is the outcome of
the `random.random() < 0.20` discovery draw. -/
def score_article (a : ArticleDoc) (user_interests : List String)
    (affinity : Scores) (relevance : List (String × ℚ)) (now : Int)
    (wildcard : Bool) : ℚ :=
  let cat := a.category
  (if cat != "" && user_interests.contains cat then (20 : ℚ) else 0)
    + ((affinity.completion.lookup cat).getD 0)
    + ((affinity.engagement.lookup cat).getD 0)
    + ((affinity.comments.lookup cat).getD 0)
    + ((affinity.poll_votes.lookup cat).getD 0)
    + ((affinity.likes.lookup cat).getD 0)
    + relevanceAdjustment relevance cat
    + freshnessBonus a.published_at now
    + (if wildcard then 10 else 0)

/-- The state of the affinity cache.  `redis = some r` models a configured
Redis backend (`REDIS_URL` set): `r` maps a user id to a cached profile and
its expiry timestamp (`setex key 300 value` stores expiry `now + 300`).
`redis = none` selects the in-process dict `_affinity_cache`, which maps a
user id to a profile and the timestamp it was stored at. -/
structure CacheState where
  redis : Option (List (String × Scores × Int))
  inproc : List (String × Scores × Int)
  deriving DecidableEq

/-- `_get_user_affinity_scores`: read-through cache around `computeAffinity`.
On the Redis backend a cached value is served while it has not expired; on the
in-process backend while it is younger than 300 seconds.  On a miss the
profile is recomputed and stored (the early-return branch of the source caches
the empty profile the same way, so both branches are modelled uniformly). -/
def getUserAffinityScores (st : Store) (cs : CacheState) (uid : String)
    (now : Int) : Scores × CacheState :=
  let fresh := computeAffinity st uid
  match cs.redis with
  | some r =>
    match r.lookup uid with
    | some (v, expiry) =>
      if now < expiry then (v, cs)
      else (fresh, { cs with redis := some (setk r uid (fresh, now + 300)) })
    | none => (fresh, { cs with redis := some (setk r uid (fresh, now + 300)) })
  | none =>
    match cs.inproc.lookup uid with
    | some (v, ts) =>
      if now - ts < 300 then (v, cs)
      else (fresh, { cs with inproc := setk cs.inproc uid (fresh, now) })
    | none => (fresh, { cs with inproc := setk cs.inproc uid (fresh, now) })

/-- `submit_relevance_feedback`: appends a feedback document and pops the
user's entry from the in-process `_affinity_cache` dict.  The Redis key
`affinity:{user_id}` is not touched by the source. -/
def submitRelevanceFeedback (st : Store) (cs : CacheState) (uid aid : String)
    (is_rel : Bool) : Store × CacheState :=
  ({ st with relevance_feedback :=
      st.relevance_feedback ++ [⟨uid, aid, is_rel⟩] },
   { cs with inproc := cs.inproc.filter (fun e => !(e.1 == uid)) })

/-- The query-parameter filters of `get_articles`, applied at the DB level. -/
def matchesQuery (a : ArticleDoc) (category subcategory : Option String)
    (developing : Option Bool) : Bool :=
  (match category with | some c => a.category == c | none => true)
    && (match subcategory with | some s => a.subcategory == s | none => true)
    && (match developing with | some d => a.is_developing == d | none => true)

/-- Descending comparison of optional publication times: documents without
one sort last (Mongo sorts missing values lowest). -/
def optDescLe : Option Int → Option Int → Prop
  | some x, some y => y ≤ x
  | some _, none => True
  | none, some _ => False
  | none, none => True

instance : DecidableRel optDescLe := fun x y => by
  cases x <;> cases y <;> simp only [optDescLe] <;> infer_instance

theorem optDescLe_total : ∀ x y, optDescLe x y ∨ optDescLe y x := by
  intro x y
  cases x <;> cases y <;> simp [optDescLe] <;> exact le_total _ _

theorem optDescLe_trans : ∀ x y z, optDescLe x y → optDescLe y z → optDescLe x z := by
  intro x y z
  cases x <;> cases y <;> cases z <;> simp [optDescLe]
  exact fun h1 h2 => le_trans h2 h1

/-- Sort key order for `.sort("published_at", -1)`: descending by publication
time. -/
def pubDescRel (a b : ArticleDoc) : Prop := optDescLe a.published_at b.published_at

instance : DecidableRel pubDescRel := fun a b =>
  inferInstanceAs (Decidable (optDescLe a.published_at b.published_at))

instance : IsTotal ArticleDoc pubDescRel := ⟨fun a b => optDescLe_total _ _⟩

instance : IsTrans ArticleDoc pubDescRel :=
  ⟨fun _ _ _ hab hbc => optDescLe_trans _ _ _ hab hbc⟩

/-- Sort order of the personalized path: descending by score, ties equal. -/
def scoreDescRel (x y : ℚ × ArticleDoc) : Prop := y.1 ≤ x.1

instance : DecidableRel scoreDescRel := fun x y =>
  inferInstanceAs (Decidable (y.1 ≤ x.1))

instance : IsTotal (ℚ × ArticleDoc) scoreDescRel := ⟨fun x y => le_total y.1 x.1⟩

instance : IsTrans (ℚ × ArticleDoc) scoreDescRel :=
  ⟨fun _ _ _ hab hbc => le_trans hbc hab⟩

/-- The candidate window of the personalized path: the 50 most recent articles
matching the filters. -/
def feedCandidates (st : Store) (category subcategory : Option String)
    (developing : Option Bool) : List ArticleDoc :=
  ((st.articles.filter (fun a => matchesQuery a category subcategory developing)
    ).insertionSort pubDescRel).take 50

/-- The per-category average relevance feedback of `get_articles`: the user's
feedback documents are joined against an article-id → category map built from
the candidates and, for feedback on articles outside the window, from a store
lookup; per category the average of `is_relevant` (1/0) is returned. -/
def relevanceByCategory (st : Store) (uid : String)
    (candidates : List ArticleDoc) : List (String × ℚ) :=
  let relevance_docs := (st.relevance_feedback.filter (fun d => d.user_id == uid)).take 5000
  let cat_map := candidates.foldl
    (fun m a => if a.category == "" then m else setk m a.article_id a.category) []
  let missing := relevance_docs.filterMap
    (fun d => if (cat_map.lookup d.article_id).isSome then none else some d.article_id)
  let extras := st.articles.filter (fun a => missing.contains a.article_id)
  let cat_map2 := extras.foldl
    (fun m a => if a.category == "" then m else setk m a.article_id a.category)
    cat_map
  let accum := relevance_docs.foldl
    (fun (m : List (String × ℚ × Nat)) d =>
      match cat_map2.lookup d.article_id with
      | none => m
      | some cat =>
        let prev := (m.lookup cat).getD (0, 0)
        setk m cat (prev.1 + (if d.is_relevant then 1 else 0), prev.2 + 1))
    []
  accum.filterMap
    (fun p => if 0 < p.2.2 then some (p.1, p.2.1 / (p.2.2 : ℚ)) else none)

/-- The scored candidate list of the personalized path: each candidate is
paired with its score; `rng i` is the discovery-wildcard draw of the `i`-th
candidate. -/
def feedScored (st : Store) (cs : CacheState) (u : UserDoc)
    (category subcategory : Option String) (developing : Option Bool)
    (rng : Nat → Bool) (now : Int) : List (ℚ × ArticleDoc) :=
  let candidates := feedCandidates st category subcategory developing
  let affinity := (getUserAffinityScores st cs u.user_id now).1
  let relevance := relevanceByCategory st u.user_id candidates
  candidates.enum.map
    (fun p => (score_article p.2 u.interests affinity relevance now (rng p.1), p.2))

/-- The feed endpoint `get_articles`.  An unauthenticated caller or a user
with no declared interests gets the filtered articles sorted by
`published_at` descending, paginated by `skip`/`limit`; an authenticated user
with interests gets the top 10 of the scored 50-candidate window (the `skip`
and `limit` parameters are not used on that path). -/
def getArticles (st : Store) (cs : CacheState)
    (category subcategory : Option String) (developing : Option Bool)
    (limit skip : Nat) (user : Option UserDoc) (rng : Nat → Bool)
    (now : Int) : List ArticleDoc × CacheState :=
  let filtered := st.articles.filter
    (fun a => matchesQuery a category subcategory developing)
  match user with
  | none => (((filtered.insertionSort pubDescRel).drop skip).take limit, cs)
  | some u =>
    if u.interests.isEmpty then
      (((filtered.insertionSort pubDescRel).drop skip).take limit, cs)
    else
      let candidates := feedCandidates st category subcategory developing
      if candidates.isEmpty then ([], cs)
      else
        let scored := feedScored st cs u category subcategory developing rng now
        (((scored.insertionSort scoreDescRel).take 10).map (fun p => p.2),
         (getUserAffinityScores st cs u.user_id now).2)

/-- `vote_poll`: returns the store after the request together with an error
message when the request was rejected.  Every rejection happens before any
write, so the store is returned unchanged on every error path.  The expiry
check mirrors `(now - created).days >= 7`, where `timedelta.days` is floor
division of the difference in seconds by 86400. -/
def votePoll (st : Store) (uid pid choice : String) (now : Int) :
    Store × Option String :=
  match st.polls.find? (fun p => p.poll_id == pid) with
  | none => (st, some "Poll not found")
  | some poll =>
    let expired :=
      match poll.created_at with
      | some created => decide (7 ≤ Int.fdiv (now - created) 86400)
      | none => false
    if expired then (st, some "Poll has expired")
    else if !(poll.options.contains choice) then (st, some "Invalid option")
    else if (st.poll_votes.find? (fun v => v.poll_id == pid && v.user_id == uid)).isSome then
      (st, some "Already voted")
    else
      ({ st with
          poll_votes := st.poll_votes ++ [⟨uid, pid, choice⟩],
          polls := st.polls.map (fun p =>
            if p.poll_id == pid then
              { p with votes := setk p.votes choice ((p.votes.lookup choice).getD 0 + 1) }
            else p) },
       none)

/-! Concrete fixtures used by witnesses and counterexamples. -/

/-- A store with every collection empty. -/
def emptyStore : Store := ⟨[], [], [], [], [], [], []⟩

/-- A Politics article fixture. -/
def artPol : ArticleDoc := ⟨"a1", "Politics", "", false, some 0, 60⟩

/-- A second and third Politics article fixture. -/
def artPol2 : ArticleDoc := ⟨"a2", "Politics", "", false, some 0, 60⟩

/-- See `artPol2`. -/
def artPol3 : ArticleDoc := ⟨"a3", "Politics", "", false, some 0, 60⟩

/-- A relevance table fixture with a high Politics average. -/
def relPolHigh : List (String × ℚ) := [("Politics", 3/5)]

/-- Store fixture for the Redis-invalidation scenario: user `u1` has one
completed Politics read, so a fresh profile is visibly different from the
stale cached empty profile. -/
def c2store : Store :=
  { emptyStore with
    articles := [artPol],
    reading_history := [⟨"u1", "a1", 30, true⟩] }

/-- Cache fixture: Redis configured, holding a cached (empty) profile for
`u1` that expires at time 250. -/
def c2cache : CacheState := ⟨some [("u1", emptyScores, 250)], []⟩

/-- The store/cache pair after `u1` submits relevance feedback. -/
def c2after : Store × CacheState :=
  submitRelevanceFeedback c2store c2cache "u1" "a1" true

/-- Poll fixture created at time 0 with two options. -/
def c10poll : PollDoc := ⟨"p1", "a1", some 0, ["yes", "no"], []⟩

/-- Store fixture for the poll-voting claim: one poll and one existing vote
by `u1`. -/
def c10store : Store :=
  { emptyStore with
    articles := [artPol],
    polls := [c10poll],
    poll_votes := [⟨"u1", "p1", "yes"⟩] }

/-- Store fixture for the no-reading-history scenario: `u1` has comments, a
poll vote and a like, but no reading history. -/
def c3store : Store :=
  { emptyStore with
    articles := [artPol],
    comments := [⟨"u1", "a1"⟩, ⟨"u1", "a1"⟩, ⟨"u1", "a1"⟩],
    polls := [⟨"p1", "a1", some 0, ["yes"], []⟩],
    poll_votes := [⟨"u1", "p1", "yes"⟩],
    article_likes := [⟨"u1", "a1"⟩] }

/-- Store fixture for the comment-distribution scenario: `u1` has three
comments spread over three distinct Politics articles (one comment each),
plus one reading-history entry so the aggregator does not early-return. -/
def c1store : Store :=
  { emptyStore with
    articles := [artPol, artPol2, artPol3],
    reading_history := [⟨"u1", "a1", 30, false⟩],
    comments := [⟨"u1", "a1"⟩, ⟨"u1", "a2"⟩, ⟨"u1", "a3"⟩] }

/-- Parametric store fixture: `u1` has `k` comments, all on the single
Politics article `a1`, plus one reading-history entry. -/
def oneArticleCommentStore (k : Nat) : Store :=
  { emptyStore with
    articles := [artPol],
    reading_history := [⟨"u1", "a1", 30, false⟩],
    comments := List.replicate k ⟨"u1", "a1"⟩ }

/-- A reading-history entry pointing at an article id that is not in the
store (such entries are skipped by the statistics loop but still consume the
1000-record query budget). -/
def c4ghost : HistoryDoc := ⟨"u1", "ghost", 0, false⟩

/-- Store fixture for the truncation claim: 1000 ghost entries followed by
one completed Politics read.  The source's `.to_list(1000)` drops the final
(only meaningful) entry. -/
def c4store : Store :=
  { emptyStore with
    articles := [artPol],
    reading_history := List.replicate 1000 c4ghost ++ [⟨"u1", "a1", 30, true⟩] }

/-- A user fixture with a declared interest, for the personalized feed. -/
def c8user : UserDoc := ⟨"u1", ["Politics"]⟩

/-! General lemmas about the association-list helpers. -/

/-- Evaluation rule for `List.lookup` on a cons cell, phrased with `=`. -/
theorem lookup_cons_eval {β : Type} (a k : String) (b : β) (es : List (String × β)) :
    ((k, b) :: es).lookup a = if a = k then some b else es.lookup a := by
  by_cases h : a = k
  · subst h; simp [List.lookup]
  · have hb : (a == k) = false := by simp [h]
    simp [List.lookup, hb, h]

/-- Evaluation rule for `setk` on a cons cell, phrased with `=`. -/
theorem setk_cons_eval {β : Type} (k' k : String) (v' v : β) (m : List (String × β)) :
    setk ((k', v') :: m) k v = if k' = k then (k, v) :: m else (k', v') :: setk m k v := by
  by_cases h : k' = k
  · simp [setk, h]
  · have hb : (k' == k) = false := by simp [h]
    simp [setk, hb, h]

/-- Looking up after `setk`. -/
theorem lookup_setk {β : Type} (m : List (String × β)) (k k' : String) (v : β) :
    (setk m k v).lookup k' = if k' = k then some v else m.lookup k' := by
  induction m with
  | nil => simp [setk, lookup_cons_eval]
  | cons p rest ih =>
    rcases p with ⟨pk, pv⟩
    by_cases hpk : pk = k
    · have hb : (pk == k) = true := by simp [hpk]
      rw [show setk ((pk, pv) :: rest) k v = (k, v) :: rest by simp [setk, hb]]
      rw [lookup_cons_eval, lookup_cons_eval]
      by_cases h1 : k' = k
      · simp [h1]
      · have h2 : ¬ k' = pk := by rw [hpk]; exact h1
        simp [h1, h2]
    · have hb : (pk == k) = false := by simp [hpk]
      rw [show setk ((pk, pv) :: rest) k v = (pk, pv) :: setk rest k v by
        simp [setk, hb]]
      rw [lookup_cons_eval, lookup_cons_eval, ih]
      by_cases h1 : k' = pk
      · have h2 : ¬ k' = k := by rw [h1]; exact hpk
        simp [h1, h2, hpk]
      · simp [h1]

/-- Membership after `setk`: every entry is the new pair or an old entry. -/
theorem mem_setk {β : Type} {m : List (String × β)} {k : String} {v : β}
    {p : String × β} (hp : p ∈ setk m k v) : p = (k, v) ∨ p ∈ m := by
  induction m with
  | nil => simpa [setk] using hp
  | cons q rest ih =>
    rw [show setk (q :: rest) k v
        = if q.1 == k then (k, v) :: rest else q :: setk rest k v from rfl] at hp
    by_cases hqk : (q.1 == k) = true
    · rw [if_pos hqk] at hp
      rcases List.mem_cons.mp hp with h | h
      · exact Or.inl h
      · exact Or.inr (List.mem_cons_of_mem _ h)
    · rw [if_neg hqk] at hp
      rcases List.mem_cons.mp hp with h | h
      · exact Or.inr (h ▸ List.mem_cons_self _ _)
      · rcases ih h with h' | h'
        · exact Or.inl h'
        · exact Or.inr (List.mem_cons_of_mem _ h')

/-- A successful lookup is a membership. -/
theorem lookup_mem {β : Type} {m : List (String × β)} {k : String} {v : β}
    (h : m.lookup k = some v) : (k, v) ∈ m := by
  induction m with
  | nil => simp at h
  | cons q rest ih =>
    rcases q with ⟨qk, qv⟩
    rw [lookup_cons_eval] at h
    by_cases hk : k = qk
    · rw [if_pos hk] at h
      injection h with h'
      exact List.mem_cons.mpr (Or.inl (by rw [hk, h']))
    · rw [if_neg hk] at h
      exact List.mem_cons_of_mem _ (ih h)

/-- Invariant preservation through `List.foldl`. -/
theorem foldl_inv {β γ : Type} (P : γ → Prop) {g : γ → β → γ} {l : List β}
    (hg : ∀ acc b, b ∈ l → P acc → P (g acc b))
    {init : γ} (h0 : P init) : P (l.foldl g init) := by
  induction l generalizing init with
  | nil => simpa using h0
  | cons b rest ih =>
    simp only [List.foldl_cons]
    exact ih (fun acc x hx => hg acc x (List.mem_cons_of_mem _ hx))
      (hg init b (List.mem_cons_self _ _) h0)

/-- The five fields of a profile computed for a user with reading history. -/
theorem computeAffinity_fields (st : Store) (uid : String)
    (h : (userHistory st uid).isEmpty = false) :
    computeAffinity st uid
      = { completion := completionScores (compEngStats st (userHistory st uid)).1
          engagement := engagementScores (compEngStats st (userHistory st uid)).2
          comments := commentScores st uid
          poll_votes := pollVoteScores st uid
          likes := likeScores st uid } := by
  simp [computeAffinity, h]

/-- Folding the comment-count update over `n` identical comments starting
from a singleton count. -/
theorem commentCounts_replicate_aux (u a : String) (n : Nat) : ∀ j : Nat,
    (List.replicate n (⟨u, a⟩ : CommentDoc)).foldl
      (fun m c => setk m c.article_id ((m.lookup c.article_id).getD 0 + 1)) [(a, j)]
      = [(a, j + n)] := by
  induction n with
  | zero => intro j; simp
  | succ n ih =>
    intro j
    rw [List.replicate_succ, List.foldl_cons]
    have hstep : setk [(a, j)] a ((List.lookup a [(a, j)]).getD 0 + 1)
        = [(a, j + 1)] := by
      simp [setk, lookup_cons_eval]
    show (List.replicate n (⟨u, a⟩ : CommentDoc)).foldl _
        (setk [(a, j)] a ((List.lookup a [(a, j)]).getD 0 + 1)) = _
    rw [hstep, ih (j + 1)]
    have : j + 1 + n = j + (n + 1) := by omega
    rw [this]

/-- `k ≥ 1` comments all on one article produce the single count `(a, k)`. -/
theorem commentArticleCounts_replicate (u a : String) (k : Nat) (h : 1 ≤ k) :
    commentArticleCounts (List.replicate k (⟨u, a⟩ : CommentDoc)) = [(a, k)] := by
  obtain ⟨n, rfl⟩ : ∃ n, k = n + 1 := ⟨k - 1, by omega⟩
  rw [commentArticleCounts, List.replicate_succ, List.foldl_cons]
  have hstep : setk [] a ((List.lookup a ([] : List (String × Nat))).getD 0 + 1)
      = [(a, 1)] := by
    simp [setk]
  show (List.replicate n (⟨u, a⟩ : CommentDoc)).foldl _
      (setk [] a ((List.lookup a ([] : List (String × Nat))).getD 0 + 1)) = _
  rw [hstep, commentCounts_replicate_aux]
  have : 1 + n = n + 1 := by omega
  rw [this]

/-- Evaluating the comment-score fold for a single counted article. -/
theorem commentScoresFrom_single (k : Nat) :
    commentScoresFrom [("a1", k)] [artPol]
      = [("Politics", max 0 (if 3 ≤ k then (10 : ℚ) else (k : ℚ) * 3))] := by
  simp [commentScoresFrom, artPol, lookup_cons_eval, setk]

/-! Claim C1: the comments sub-score is per-article, not per-category. -/

/-- C1 counterexample: a user with 3 comments on Politics articles — one on
each of three distinct articles — has `comments["Politics"] = 3`, not `10`:
the per-category score is the `max` of per-article scores, not a function of
the category total. -/
theorem C1_counterexample :
    (computeAffinity c1store "u1").comments.lookup "Politics" = some 3
    ∧ ¬ ((computeAffinity c1store "u1").comments.lookup "Politics" = some 10) := by
  have hcounts : commentArticleCounts (userComments c1store "u1")
      = [("a1", 1), ("a2", 1), ("a3", 1)] := by decide
  have heval : commentScoresFrom [("a1", (1 : Nat)), ("a2", 1), ("a3", 1)]
      [artPol, artPol2, artPol3] = [("Politics", 3)] := by
    simp [commentScoresFrom, artPol, artPol2, artPol3, lookup_cons_eval,
      setk_cons_eval, setk]
  have hmain : (computeAffinity c1store "u1").comments = [("Politics", 3)] := by
    rw [computeAffinity_fields c1store "u1" (by decide)]
    show commentScores c1store "u1" = _
    rw [commentScores, hcounts]
    exact heval
  rw [hmain, lookup_cons_eval]
  norm_num

/-- C1 (amended): the comments signal is per-article: `k` comments all on a
single Politics article yield `comments["Politics"] = 10` when `k ≥ 3` and
`k * 3` otherwise (the per-category value is the max of per-article values,
so distributing comments across articles does not accumulate). -/
theorem C1_comments_per_article_max (k : Nat) (h1 : 1 ≤ k) (h2 : k ≤ 5000) :
    (computeAffinity (oneArticleCommentStore k) "u1").comments
      = [("Politics", if 3 ≤ k then (10 : ℚ) else (k : ℚ) * 3)] := by
  have hcom : userComments (oneArticleCommentStore k) "u1"
      = List.replicate k ⟨"u1", "a1"⟩ := by
    rw [userComments]
    show ((List.replicate k (⟨"u1", "a1"⟩ : CommentDoc)).filter _).take 5000 = _
    rw [List.filter_replicate_of_pos (by rfl)]
    exact List.take_of_length_le (by simpa using h2)
  have hmax : max 0 (if 3 ≤ k then (10 : ℚ) else (k : ℚ) * 3)
      = (if 3 ≤ k then (10 : ℚ) else (k : ℚ) * 3) := by
    apply max_eq_right
    split_ifs
    · norm_num
    · positivity
  rw [computeAffinity_fields (oneArticleCommentStore k) "u1" (by rfl)]
  show commentScores _ "u1" = _
  rw [commentScores, hcom, commentArticleCounts_replicate _ _ _ h1]
  show commentScoresFrom [("a1", k)] [artPol] = _
  rw [commentScoresFrom_single, hmax]

/-- C1 witness: two comments on one article give `comments["Politics"] = 6`
(the `k * 3` branch of the amended statement at `k = 2`). -/
theorem C1_comments_per_article_max_witness :
    ((1 : Nat) ≤ 2 ∧ (2 : Nat) ≤ 5000)
    ∧ (computeAffinity (oneArticleCommentStore 2) "u1").comments
        = [("Politics", if 3 ≤ 2 then (10 : ℚ) else ((2 : Nat) : ℚ) * 3)] :=
  ⟨⟨by norm_num, by norm_num⟩,
    C1_comments_per_article_max 2 (by norm_num) (by norm_num)⟩

/-! Claim C5: bounds of the affinity sub-scores, and zero contribution of
absent categories. -/

/-- Values of the completion map lie in `[0, 20]` whenever every stats entry
has `completed ≤ total`. -/
theorem completionScores_bounds {l : List (String × Nat × Nat)}
    (hl : ∀ p ∈ l, p.2.2 ≤ p.2.1) {c : String} {q : ℚ}
    (h : (completionScores l).lookup c = some q) : 0 ≤ q ∧ q ≤ 20 := by
  have hmem := lookup_mem h
  rw [completionScores] at hmem
  rcases List.mem_filterMap.mp hmem with ⟨p, hp, he⟩
  by_cases h0 : 0 < p.2.1
  · rw [if_pos h0] at he
    injection he with he'
    have hq : q = ((p.2.2 : ℚ) / (p.2.1 : ℚ)) * 20 :=
      ((Prod.mk.injEq _ _ _ _).mp he').2.symm
    have hden : (0 : ℚ) < (p.2.1 : ℚ) := by exact_mod_cast h0
    have hdiv0 : (0 : ℚ) ≤ (p.2.2 : ℚ) / (p.2.1 : ℚ) := by positivity
    have hdiv1 : (p.2.2 : ℚ) / (p.2.1 : ℚ) ≤ 1 := by
      rw [div_le_one hden]
      exact_mod_cast hl p hp
    constructor
    · rw [hq]; positivity
    · rw [hq]; linarith
  · rw [if_neg h0] at he
    simp at he

/-- Values of the engagement map lie in `[0, 20]` whenever every stats entry
has `0 ≤ total_ratio ≤ count`. -/
theorem engagementScores_bounds {l : List (String × ℚ × Nat)}
    (hl : ∀ p ∈ l, 0 ≤ p.2.1 ∧ p.2.1 ≤ (p.2.2 : ℚ)) {c : String} {q : ℚ}
    (h : (engagementScores l).lookup c = some q) : 0 ≤ q ∧ q ≤ 20 := by
  have hmem := lookup_mem h
  rw [engagementScores] at hmem
  rcases List.mem_filterMap.mp hmem with ⟨p, hp, he⟩
  by_cases h0 : 0 < p.2.2
  · rw [if_pos h0] at he
    injection he with he'
    have hq : q = (p.2.1 / (p.2.2 : ℚ)) * 20 :=
      ((Prod.mk.injEq _ _ _ _).mp he').2.symm
    have hden : (0 : ℚ) < (p.2.2 : ℚ) := by exact_mod_cast h0
    have hdiv0 : (0 : ℚ) ≤ p.2.1 / (p.2.2 : ℚ) := div_nonneg (hl p hp).1 hden.le
    have hdiv1 : p.2.1 / (p.2.2 : ℚ) ≤ 1 := by
      rw [div_le_one hden]
      exact (hl p hp).2
    constructor
    · rw [hq]; positivity
    · rw [hq]; linarith
  · rw [if_neg h0] at he
    simp at he

/-- Every value of the comment-score map lies in `[0, 10]`. -/
theorem commentScoresFrom_bounds (counts : List (String × Nat))
    (arts : List ArticleDoc) {c : String} {q : ℚ}
    (h : (commentScoresFrom counts arts).lookup c = some q) :
    0 ≤ q ∧ q ≤ 10 := by
  have hmem := lookup_mem h
  have hinv : ∀ p ∈ commentScoresFrom counts arts, 0 ≤ p.2 ∧ p.2 ≤ (10 : ℚ) := by
    simp only [commentScoresFrom]
    apply foldl_inv
      (fun (m : List (String × ℚ)) => ∀ p ∈ m, 0 ≤ p.2 ∧ p.2 ≤ (10 : ℚ))
    · intro m a _ hm p hp
      by_cases hc : (a.category == "") = true
      · rw [if_pos hc] at hp
        exact hm p hp
      · rw [if_neg hc] at hp
        rcases mem_setk hp with rfl | hold
        · dsimp only
          have hx : 0 ≤ (if 3 ≤ (counts.lookup a.article_id).getD 0 then (10 : ℚ)
                else (((counts.lookup a.article_id).getD 0 : Nat) : ℚ) * 3)
              ∧ (if 3 ≤ (counts.lookup a.article_id).getD 0 then (10 : ℚ)
                else (((counts.lookup a.article_id).getD 0 : Nat) : ℚ) * 3) ≤ 10 := by
            split_ifs with h3
            · norm_num
            · have h2 : ((counts.lookup a.article_id).getD 0 : Nat) ≤ 2 := by omega
              have h2' : ((((counts.lookup a.article_id).getD 0 : Nat)) : ℚ) ≤ 2 := by
                exact_mod_cast h2
              constructor
              · positivity
              · linarith
          have hprev : 0 ≤ (m.lookup a.category).getD 0
              ∧ (m.lookup a.category).getD 0 ≤ (10 : ℚ) := by
            rcases hlk : m.lookup a.category with _ | v
            · simp
            · simpa using hm _ (lookup_mem hlk)
          exact ⟨le_max_of_le_right hx.1, max_le hprev.2 hx.2⟩
        · exact hm p hold
    · intro p hp
      simp at hp
  exact hinv _ hmem

/-- Every value of a `flatFive` map is exactly `5`. -/
theorem flatFive_values (arts : List ArticleDoc) {c : String} {q : ℚ}
    (h : (flatFive arts).lookup c = some q) : q = 5 := by
  have hmem := lookup_mem h
  have hinv : ∀ p ∈ flatFive arts, p.2 = (5 : ℚ) := by
    unfold flatFive
    apply foldl_inv
      (fun (m : List (String × ℚ)) => ∀ p ∈ m, p.2 = (5 : ℚ))
    · intro m a _ hm p hp
      by_cases hc : (a.category == "") = true
      · rw [if_pos hc] at hp
        exact hm p hp
      · rw [if_neg hc] at hp
        rcases mem_setk hp with rfl | hold
        · rfl
        · exact hm p hold
    · intro p hp
      simp at hp
  exact hinv _ hmem

/-- Invariant of the completion/engagement statistics loop: per category,
`completed ≤ total` and `0 ≤ total_ratio ≤ count`, provided every folded
entry has non-negative `time_spent`. -/
theorem compEngStats_inv (st : Store) (history : List HistoryDoc)
    (hts : ∀ h ∈ history, 0 ≤ h.time_spent) :
    (∀ p ∈ (compEngStats st history).1, p.2.2 ≤ p.2.1)
    ∧ (∀ p ∈ (compEngStats st history).2,
        0 ≤ p.2.1 ∧ p.2.1 ≤ (p.2.2 : ℚ)) := by
  unfold compEngStats
  apply foldl_inv
    (fun (acc : List (String × Nat × Nat) × List (String × ℚ × Nat)) =>
      (∀ p ∈ acc.1, p.2.2 ≤ p.2.1)
        ∧ (∀ p ∈ acc.2, 0 ≤ p.2.1 ∧ p.2.1 ≤ (p.2.2 : ℚ)))
  · intro acc h hmemh hinv
    obtain ⟨inv1, inv2⟩ := hinv
    unfold statsStep
    rcases hfa : findArticle st h.article_id with _ | meta
    · exact ⟨inv1, inv2⟩
    · dsimp only
      by_cases hc : (meta.category == "") = true
      · rw [if_pos hc]
        exact ⟨inv1, inv2⟩
      · rw [if_neg hc]
        constructor
        · intro p hp
          dsimp only at hp
          rcases mem_setk hp with rfl | hold
          · dsimp only
            rcases hlk : acc.1.lookup meta.category with _ | v
            · simp only [hlk, Option.getD_none]
              split_ifs <;> omega
            · simp only [hlk, Option.getD_some]
              have hv : v.2 ≤ v.1 := inv1 _ (lookup_mem hlk)
              split_ifs <;> omega
          · exact inv1 p hold
        · intro p hp
          dsimp only at hp
          by_cases hrts : 0 < meta.reading_time_sec
          · rw [if_pos hrts] at hp
            rcases mem_setk hp with rfl | hold
            · dsimp only
              have hts' : 0 ≤ h.time_spent := hts h hmemh
              have hfrac0 : 0 ≤ min (h.time_spent / meta.reading_time_sec) 1 :=
                le_min (div_nonneg hts' hrts.le) (by norm_num)
              have hfrac1 : min (h.time_spent / meta.reading_time_sec) 1 ≤ 1 :=
                min_le_right _ _
              rcases hlk : acc.2.lookup meta.category with _ | v
              · simp only [hlk, Option.getD_none]
                constructor
                · simpa using hfrac0
                · push_cast
                  simpa using hfrac1
              · simp only [hlk, Option.getD_some]
                have hv : 0 ≤ v.1 ∧ v.1 ≤ (v.2 : ℚ) := inv2 _ (lookup_mem hlk)
                constructor
                · exact add_nonneg hv.1 hfrac0
                · push_cast
                  have := hv.2
                  linarith
            · exact inv2 p hold
          · rw [if_neg hrts] at hp
            exact inv2 p hp
  · refine ⟨?_, ?_⟩ <;> intro p hp <;> simp at hp

/-- C5: for every user whose reading-history entries all have non-negative
`time_spent`, every present completion value lies in `[0, 20]`, every
engagement value in `[0, 20]`, every comments value in `[0, 10]`, every
poll-vote and like value is exactly `5`; and an article whose category is
absent from all five maps is scored exactly as under the empty profile (the
absent keys contribute `0`, never an error). -/
theorem C5_affinity_bounds (st : Store) (uid : String)
    (hts : ∀ h ∈ st.reading_history, 0 ≤ h.time_spent) :
    (∀ c q, (computeAffinity st uid).completion.lookup c = some q →
      0 ≤ q ∧ q ≤ 20)
    ∧ (∀ c q, (computeAffinity st uid).engagement.lookup c = some q →
      0 ≤ q ∧ q ≤ 20)
    ∧ (∀ c q, (computeAffinity st uid).comments.lookup c = some q →
      0 ≤ q ∧ q ≤ 10)
    ∧ (∀ c q, (computeAffinity st uid).poll_votes.lookup c = some q → q = 5)
    ∧ (∀ c q, (computeAffinity st uid).likes.lookup c = some q → q = 5)
    ∧ (∀ (aff : Scores) (a : ArticleDoc) (interests : List String)
        (rel : List (String × ℚ)) (now : Int) (w : Bool),
        aff.completion.lookup a.category = none →
        aff.engagement.lookup a.category = none →
        aff.comments.lookup a.category = none →
        aff.poll_votes.lookup a.category = none →
        aff.likes.lookup a.category = none →
        score_article a interests aff rel now w
          = score_article a interests emptyScores rel now w) := by
  have habsent : ∀ (aff : Scores) (a : ArticleDoc) (interests : List String)
      (rel : List (String × ℚ)) (now : Int) (w : Bool),
      aff.completion.lookup a.category = none →
      aff.engagement.lookup a.category = none →
      aff.comments.lookup a.category = none →
      aff.poll_votes.lookup a.category = none →
      aff.likes.lookup a.category = none →
      score_article a interests aff rel now w
        = score_article a interests emptyScores rel now w := by
    intro aff a interests rel now w h1 h2 h3 h4 h5
    simp only [score_article, h1, h2, h3, h4, h5, emptyScores, List.lookup_nil]
  by_cases hemp : (userHistory st uid).isEmpty = true
  · have hall : computeAffinity st uid = emptyScores := by
      simp [computeAffinity, hemp]
    refine ⟨?_, ?_, ?_, ?_, ?_, habsent⟩ <;>
      · intro c q hq
        rw [hall] at hq
        simp [emptyScores] at hq
  · have hemp' : (userHistory st uid).isEmpty = false := by
      simpa using hemp
    have hts' : ∀ h ∈ userHistory st uid, 0 ≤ h.time_spent := by
      intro h hm
      exact hts h (List.mem_filter.mp (List.mem_of_mem_take hm)).1
    have hfields := computeAffinity_fields st uid hemp'
    obtain ⟨hinv1, hinv2⟩ := compEngStats_inv st (userHistory st uid) hts'
    refine ⟨?_, ?_, ?_, ?_, ?_, habsent⟩
    · intro c q hq
      rw [hfields] at hq
      exact completionScores_bounds hinv1 hq
    · intro c q hq
      rw [hfields] at hq
      exact engagementScores_bounds hinv2 hq
    · intro c q hq
      rw [hfields] at hq
      exact commentScoresFrom_bounds _ _ hq
    · intro c q hq
      rw [hfields] at hq
      exact flatFive_values _ hq
    · intro c q hq
      rw [hfields] at hq
      exact flatFive_values _ hq

/-- C5 witness: the bounds at a concrete store with non-negative reading
times. -/
theorem C5_affinity_bounds_witness :
    (∀ h ∈ c2store.reading_history, 0 ≤ h.time_spent)
    ∧ (∀ c q, (computeAffinity c2store "u1").completion.lookup c = some q →
        0 ≤ q ∧ q ≤ 20) := by
  have hts : ∀ h ∈ c2store.reading_history, 0 ≤ h.time_spent := by
    intro h hm
    rw [show c2store.reading_history = [⟨"u1", "a1", 30, true⟩] from rfl,
      List.mem_singleton] at hm
    subst hm
    norm_num
  exact ⟨hts, (C5_affinity_bounds c2store "u1" hts).1⟩

/-! Claim C2: Redis-backend cache entries survive a relevance-feedback
submission. -/

/-- C2: evaluation of the source at the failing input.  With the Redis
backend configured and holding a still-valid cached profile for `u1`,
submitting relevance feedback does not remove the Redis entry: the next
affinity lookup returns the stale cached (empty) profile even though a
recomputation from the document store would return a non-empty one. -/
theorem C2_redis_entry_survives_feedback :
    (getUserAffinityScores c2after.1 c2after.2 "u1" 100).1 = emptyScores
    ∧ (computeAffinity c2after.1 "u1").completion ≠ []
    ∧ emptyScores.completion = [] := by
  refine ⟨rfl, by decide, rfl⟩

/-! Claim C6: freshness boundaries of the scorer. -/

/-- C6: the freshness term contributes exactly `freshnessBonus` to the score
(the score of an article equals the score of the same article without a
publication time plus its bonus), and the bonus is `+10` for age at most 6
hours (21600 s), `+5` for more than 6 but at most 24 hours (86400 s), and `0`
beyond; in particular at exactly 6 hours it is `+10`, at 6 hours 1 second
`+5`, at exactly 24 hours `+5`, and at 24 hours 1 second `0`. -/
theorem C6_freshness_boundaries (a : ArticleDoc) (interests : List String)
    (aff : Scores) (rel : List (String × ℚ)) (t now : Int) (w : Bool) :
    score_article a interests aff rel now w
      = score_article { a with published_at := none } interests aff rel now w
          + freshnessBonus a.published_at now
    ∧ (freshnessBonus (some t) now
        = if now - t ≤ 21600 then (10 : ℚ) else if now - t ≤ 86400 then 5 else 0)
    ∧ freshnessBonus (some (now - 21600)) now = 10
    ∧ freshnessBonus (some (now - 21601)) now = 5
    ∧ freshnessBonus (some (now - 86400)) now = 5
    ∧ freshnessBonus (some (now - 86401)) now = 0 := by
  have hchar : ∀ t' : Int, freshnessBonus (some t') now
      = if now - t' ≤ 21600 then (10 : ℚ) else if now - t' ≤ 86400 then 5 else 0 := by
    intro t'
    have h6 : (((now - t' : Int) : ℚ) / 3600 ≤ 6) ↔ ((now - t' : Int) ≤ 21600) := by
      rw [div_le_iff (by norm_num : (0:ℚ) < 3600),
        show (6 : ℚ) * 3600 = ((21600 : ℤ) : ℚ) by norm_num]
      exact Int.cast_le
    have h24 : (((now - t' : Int) : ℚ) / 3600 ≤ 24) ↔ ((now - t' : Int) ≤ 86400) := by
      rw [div_le_iff (by norm_num : (0:ℚ) < 3600),
        show (24 : ℚ) * 3600 = ((86400 : ℤ) : ℚ) by norm_num]
      exact Int.cast_le
    show (if ((now - t' : Int) : ℚ) / 3600 ≤ 6 then (10 : ℚ)
        else if ((now - t' : Int) : ℚ) / 3600 ≤ 24 then 5 else 0) = _
    rw [if_congr h6 rfl (if_congr h24 rfl rfl)]
  have hnone : freshnessBonus none now = 0 := rfl
  refine ⟨?_, hchar t, ?_, ?_, ?_, ?_⟩
  · simp only [score_article, hnone]
    ring
  · rw [hchar, show now - (now - 21600) = 21600 from by ring]
    norm_num
  · rw [hchar, show now - (now - 21601) = 21601 from by ring]
    norm_num
  · rw [hchar, show now - (now - 86400) = 86400 from by ring]
    norm_num
  · rw [hchar, show now - (now - 86401) = 86401 from by ring]
    norm_num

/-! Claim C7: the relevance-feedback adjustment of the scorer. -/

/-- C7: with a recorded average for the article's category the scorer adds
exactly `+10` when the average exceeds `0.5`, `-10` when it is below `0.3`
and `0` otherwise (relative to scoring with no relevance table), and with no
recorded average the adjustment is `0`. -/
theorem C7_relevance_adjustment (a : ArticleDoc) (interests : List String)
    (aff : Scores) (now : Int) (w : Bool) (rel : List (String × ℚ)) :
    (∀ avg : ℚ, rel.lookup a.category = some avg →
      score_article a interests aff rel now w
        = score_article a interests aff [] now w
            + (if 1/2 < avg then 10 else if avg < 3/10 then -10 else 0))
    ∧ (rel.lookup a.category = none →
      score_article a interests aff rel now w
        = score_article a interests aff [] now w) := by
  constructor
  · intro avg havg
    simp only [score_article, relevanceAdjustment, havg, List.lookup_nil]
    ring
  · intro hnone
    simp only [score_article, relevanceAdjustment, hnone, List.lookup_nil]

/-- C7 witness: concrete instances of both cases of the relevance
adjustment. -/
theorem C7_relevance_adjustment_witness :
    relPolHigh.lookup artPol.category = some (3/5)
    ∧ score_article artPol [] emptyScores relPolHigh 0 false
        = score_article artPol [] emptyScores [] 0 false
            + (if (1:ℚ)/2 < 3/5 then 10 else if (3:ℚ)/5 < 3/10 then -10 else 0)
    ∧ (([] : List (String × ℚ)).lookup artPol2.category = none)
    ∧ score_article artPol2 [] emptyScores [] 0 false
        = score_article artPol2 [] emptyScores [] 0 false := by
  refine ⟨rfl, ?_, rfl, ?_⟩
  · exact (C7_relevance_adjustment artPol [] emptyScores 0 false relPolHigh).1 (3/5) rfl
  · exact (C7_relevance_adjustment artPol2 [] emptyScores 0 false []).2 rfl

/-! Claim C10: rejected poll votes leave the store unchanged. -/

/-- C10: (a) a vote on a poll created 7 or more days (604800 s) before `now`
is rejected with the expiry error and the store is returned unchanged; (b)
every rejected vote leaves the store unchanged (no vote record inserted, no
count incremented); (c) a vote whose option is not among the poll's options
is rejected and leaves the store unchanged; (d) likewise when the user has
already voted on the poll. -/
theorem C10_vote_poll (s : Store) (uid pid choice : String) (now : Int) :
    (∀ p t, s.polls.find? (fun q => q.poll_id == pid) = some p →
      p.created_at = some t → 604800 ≤ now - t →
      votePoll s uid pid choice now = (s, some "Poll has expired"))
    ∧ ((votePoll s uid pid choice now).2.isSome = true →
        (votePoll s uid pid choice now).1 = s)
    ∧ (∀ p, s.polls.find? (fun q => q.poll_id == pid) = some p →
        choice ∉ p.options →
        (votePoll s uid pid choice now).1 = s
          ∧ (votePoll s uid pid choice now).2.isSome = true)
    ∧ (∀ p, s.polls.find? (fun q => q.poll_id == pid) = some p →
        (s.poll_votes.find? (fun v => v.poll_id == pid && v.user_id == uid)).isSome = true →
        (votePoll s uid pid choice now).1 = s
          ∧ (votePoll s uid pid choice now).2.isSome = true) := by
  have hfdiv : ∀ x : Int, 604800 ≤ x → 7 ≤ Int.fdiv x 86400 := by
    intro x hx
    rw [Int.fdiv_eq_ediv _ (by norm_num : (0:ℤ) ≤ 86400),
      Int.le_ediv_iff_mul_le (by norm_num : (0:ℤ) < 86400)]
    omega
  refine ⟨?_, ?_, ?_, ?_⟩
  · intro p t hfind hct hexp
    have hd : (7 ≤ Int.fdiv (now - t) 86400) := hfdiv _ hexp
    simp only [votePoll, hfind, hct, decide_eq_true hd, if_true]
  · intro herr
    unfold votePoll at *
    rcases hfind : s.polls.find? (fun q => q.poll_id == pid) with _ | p
    · simp [hfind]
    · simp only [hfind] at herr ⊢
      split_ifs at herr ⊢ <;> simp_all
  · intro p hfind hopt
    have hc : p.options.contains choice = false := by
      simpa using hopt
    simp only [votePoll, hfind, hc]
    split_ifs <;> simp_all
  · intro p hfind hvoted
    simp only [votePoll, hfind, hvoted]
    split_ifs <;> simp_all

/-- C10 witness: a store with an expired poll, an invalid chosen option and an
existing vote; all three rejection hypotheses hold and the vote is rejected
with the store unchanged. -/
theorem C10_vote_poll_witness :
    votePoll c10store "u1" "p1" "maybe" 604800 = (c10store, some "Poll has expired")
    ∧ (votePoll c10store "u1" "p1" "maybe" 604800).1 = c10store := by
  have h := C10_vote_poll c10store "u1" "p1" "maybe" 604800
  have hfind : c10store.polls.find? (fun q => q.poll_id == "p1") = some c10poll := rfl
  exact ⟨h.1 c10poll 0 hfind rfl (by decide),
    (h.2.2.1 c10poll hfind (by decide)).1⟩

/-! Claim C3: behaviour of the aggregator for a user with no reading
history. -/

/-- C3 counterexample: a user with no reading history but with comments, a
poll vote and a like still gets the all-empty profile — the comment, vote and
like signals are not computed, contrary to the claim that those maps come out
non-empty. -/
theorem C3_counterexample :
    computeAffinity c3store "u1" = emptyScores
    ∧ c3store.comments.filter (fun c => c.user_id == "u1") ≠ []
    ∧ c3store.poll_votes.filter (fun v => v.user_id == "u1") ≠ []
    ∧ c3store.article_likes.filter (fun d => d.user_id == "u1") ≠ []
    ∧ emptyScores.comments = [] := by
  refine ⟨by decide, by decide, by decide, by decide, rfl⟩

/-- C3 (amended): for a user with no reading-history entries the aggregator
early-returns the profile with all five maps empty (no error), regardless of
the user's comments, poll votes or likes. -/
theorem C3_no_history_all_empty (st : Store) (uid : String)
    (h : st.reading_history.filter (fun x => x.user_id == uid) = []) :
    computeAffinity st uid = emptyScores := by
  simp [computeAffinity, userHistory, h]

/-- C3 witness: the amended statement at the concrete fixture. -/
theorem C3_no_history_all_empty_witness :
    c3store.reading_history.filter (fun x => x.user_id == "u1") = []
    ∧ computeAffinity c3store "u1" = emptyScores :=
  ⟨rfl, C3_no_history_all_empty c3store "u1" rfl⟩

/-! Claim C9: the anonymous / no-interests feed path. -/

/-- C9: for an unauthenticated caller or a user with no declared interests
the feed is exactly the filtered articles sorted by `published_at`
descending, with `skip` dropped and at most `limit` returned, the sort is
genuinely sorted, and the result does not depend on the random source, the
cache state or the relevance-feedback collection. -/
theorem C9_anonymous_feed (st : Store) (cs : CacheState)
    (category subcategory : Option String) (developing : Option Bool)
    (limit skip : Nat) (user : Option UserDoc) (rng : Nat → Bool) (now : Int)
    (h : ∀ u, user = some u → u.interests = []) :
    (getArticles st cs category subcategory developing limit skip user rng now).1
      = (((st.articles.filter
            (fun a => matchesQuery a category subcategory developing)
          ).insertionSort pubDescRel).drop skip).take limit
    ∧ List.Sorted pubDescRel
        ((st.articles.filter
            (fun a => matchesQuery a category subcategory developing)
          ).insertionSort pubDescRel)
    ∧ (∀ (fb : List FeedbackDoc) (cs' : CacheState) (rng' : Nat → Bool) (now' : Int),
        (getArticles { st with relevance_feedback := fb } cs' category
            subcategory developing limit skip user rng' now').1
          = (getArticles st cs category subcategory developing limit skip
              user rng now).1) := by
  have heq : ∀ (st' : Store) (cs'' : CacheState) (rng'' : Nat → Bool) (now'' : Int),
      st'.articles = st.articles →
      (getArticles st' cs'' category subcategory developing limit skip user rng'' now'').1
        = (((st.articles.filter
              (fun a => matchesQuery a category subcategory developing)
            ).insertionSort pubDescRel).drop skip).take limit := by
    intro st' cs'' rng'' now'' harts
    cases user with
    | none => simp [getArticles, harts]
    | some u =>
      have hu : u.interests = [] := h u rfl
      simp [getArticles, hu, harts]
  refine ⟨heq st cs rng now rfl, List.sorted_insertionSort _ _, ?_⟩
  intro fb cs' rng' now'
  rw [heq { st with relevance_feedback := fb } cs' rng' now' rfl,
    heq st cs rng now rfl]

/-- C9 witness: the anonymous path at a concrete store. -/
theorem C9_anonymous_feed_witness :
    (∀ u : UserDoc, (none : Option UserDoc) = some u → u.interests = [])
    ∧ (getArticles c2store ⟨none, []⟩ none none none 20 0 none
        (fun _ => false) 0).1
      = (((c2store.articles.filter (fun a => matchesQuery a none none none)
          ).insertionSort pubDescRel).drop 0).take 20 := by
  have h : ∀ u : UserDoc, (none : Option UserDoc) = some u → u.interests = [] := by
    intro u hu
    cases hu
  exact ⟨h, (C9_anonymous_feed c2store ⟨none, []⟩ none none none 20 0 none
    (fun _ => false) 0 h).1⟩

/-! Claim C4: the signals are computed over truncated record windows, not the
entire history. -/

set_option maxRecDepth 100000 in
/-- C4 counterexample: with 1001 reading-history entries the source's
`.to_list(1000)` drops the 1001st entry — here the only completed Politics
read — so the computed profile differs from the unbounded computation the
claim describes (`completion` comes out empty instead of non-empty). -/
theorem C4_counterexample :
    (computeAffinity c4store "u1").completion = []
    ∧ (computeAffinityNoLimit c4store "u1").completion ≠ []
    ∧ computeAffinity c4store "u1" ≠ computeAffinityNoLimit c4store "u1" := by
  have h1 : (computeAffinity c4store "u1").completion = [] := by decide
  have h2 : (computeAffinityNoLimit c4store "u1").completion ≠ [] := by decide
  exact ⟨h1, h2, fun heq =>
    h2 (((congrArg Scores.completion heq).symm).trans h1)⟩

/-- C4 (amended): each signal is computed over at most the first 1000
reading-history records and the first 5000 comment, poll-vote and like
records returned for the user; when the user's record counts are within
those bounds (and the reading history is non-empty, cf. the early return)
the profile equals the unbounded computation, i.e. every record contributes
per the per-category formulas. -/
theorem C4_bounded_equals_unbounded (st : Store) (uid : String)
    (h1 : (st.reading_history.filter (fun x => x.user_id == uid)).length ≤ 1000)
    (h2 : (st.comments.filter (fun c => c.user_id == uid)).length ≤ 5000)
    (h3 : (st.poll_votes.filter (fun v => v.user_id == uid)).length ≤ 5000)
    (h4 : (st.article_likes.filter (fun d => d.user_id == uid)).length ≤ 5000)
    (h5 : st.reading_history.filter (fun x => x.user_id == uid) ≠ []) :
    computeAffinity st uid = computeAffinityNoLimit st uid := by
  have e1 := List.take_of_length_le h1
  have e2 := List.take_of_length_le h2
  have e3 := List.take_of_length_le h3
  have e4 := List.take_of_length_le h4
  simp only [computeAffinity, computeAffinityNoLimit, userHistory,
    commentScores, userComments, pollVoteScores, likeScores, e1, e2, e3, e4]
  simp [h5]

/-- C4 witness: the amended statement at a small concrete store. -/
theorem C4_bounded_equals_unbounded_witness :
    (c2store.reading_history.filter (fun x => x.user_id == "u1")).length ≤ 1000
    ∧ (c2store.comments.filter (fun c => c.user_id == "u1")).length ≤ 5000
    ∧ (c2store.poll_votes.filter (fun v => v.user_id == "u1")).length ≤ 5000
    ∧ (c2store.article_likes.filter (fun d => d.user_id == "u1")).length ≤ 5000
    ∧ c2store.reading_history.filter (fun x => x.user_id == "u1") ≠ []
    ∧ computeAffinity c2store "u1" = computeAffinityNoLimit c2store "u1" :=
  ⟨by decide, by decide, by decide, by decide, by decide,
    C4_bounded_equals_unbounded c2store "u1" (by decide) (by decide)
      (by decide) (by decide) (by decide)⟩

/-! Claim C8: the personalized feed path. -/

/-- C8: for an authenticated user with declared interests, the feed is the
first 10 of a stable descending-by-score sort of the scored candidate
window: (1) the result is exactly `take 10` of the sorted scored list mapped
to articles; (2) that sorted list is sorted descending by score; (3) it is a
permutation of the scored list; (4) ties keep retrieval order — for every
score value, filtering the sorted list to that score yields exactly the
retrieval-ordered scored list filtered to that score; (5) the result ignores
`skip` and `page_size` entirely; (6) the result has `min 10 n` articles for
an `n`-candidate window; (7) an empty candidate window yields the empty
list, not a fallback. -/
theorem C8_personalized_feed (st : Store) (cs : CacheState)
    (category subcategory : Option String) (developing : Option Bool)
    (limit skip : Nat) (u : UserDoc) (rng : Nat → Bool) (now : Int)
    (hint : u.interests.isEmpty = false) :
    (getArticles st cs category subcategory developing limit skip (some u) rng now).1
      = (((feedScored st cs u category subcategory developing rng now
          ).insertionSort scoreDescRel).take 10).map (fun p => p.2)
    ∧ List.Sorted scoreDescRel
        ((feedScored st cs u category subcategory developing rng now
          ).insertionSort scoreDescRel)
    ∧ ((feedScored st cs u category subcategory developing rng now
        ).insertionSort scoreDescRel).Perm
        (feedScored st cs u category subcategory developing rng now)
    ∧ (∀ q : ℚ,
        ((feedScored st cs u category subcategory developing rng now
          ).insertionSort scoreDescRel).filter (fun p => decide (p.1 = q))
          = (feedScored st cs u category subcategory developing rng now
            ).filter (fun p => decide (p.1 = q)))
    ∧ (∀ limit' skip' : Nat,
        (getArticles st cs category subcategory developing limit' skip'
          (some u) rng now).1
          = (getArticles st cs category subcategory developing limit skip
              (some u) rng now).1)
    ∧ (getArticles st cs category subcategory developing limit skip (some u)
        rng now).1.length
        = min 10 (feedCandidates st category subcategory developing).length
    ∧ (feedCandidates st category subcategory developing = [] →
        (getArticles st cs category subcategory developing limit skip (some u)
          rng now).1 = []) := by
  have hmain : ∀ (l s : Nat),
      (getArticles st cs category subcategory developing l s (some u) rng now).1
        = (((feedScored st cs u category subcategory developing rng now
            ).insertionSort scoreDescRel).take 10).map (fun p => p.2) := by
    intro l s
    by_cases hcand : (feedCandidates st category subcategory developing).isEmpty = true
    · have hc : feedCandidates st category subcategory developing = [] :=
        List.isEmpty_iff.mp hcand
      simp [getArticles, hint, hcand, feedScored, hc]
    · simp [getArticles, hint, hcand]
  have hlen : (feedScored st cs u category subcategory developing rng now).length
      = (feedCandidates st category subcategory developing).length := by
    rw [feedScored]
    simp
  refine ⟨hmain limit skip, List.sorted_insertionSort _ _,
    List.perm_insertionSort _ _, ?_, fun limit' skip' => by
      rw [hmain limit' skip', hmain limit skip], ?_, ?_⟩
  · intro q
    set L := feedScored st cs u category subcategory developing rng now with hL
    have hpair : (L.filter (fun p => decide (p.1 = q))).Pairwise scoreDescRel := by
      apply List.pairwise_of_forall_mem_list
      intro a ha b hb
      have ha' : a.1 = q := of_decide_eq_true (List.mem_filter.mp ha).2
      have hb' : b.1 = q := of_decide_eq_true (List.mem_filter.mp hb).2
      show b.1 ≤ a.1
      rw [ha', hb']
    have hsub : List.Sublist (L.filter (fun p => decide (p.1 = q)))
        (L.insertionSort scoreDescRel) :=
      List.sublist_insertionSort hpair (List.filter_sublist L)
    have hself : (L.filter (fun p => decide (p.1 = q))).filter (fun p => decide (p.1 = q))
        = L.filter (fun p => decide (p.1 = q)) := by
      rw [List.filter_eq_self]
      intro a ha
      exact (List.mem_filter.mp ha).2
    have hsub2 : List.Sublist (L.filter (fun p => decide (p.1 = q)))
        ((L.insertionSort scoreDescRel).filter (fun p => decide (p.1 = q))) := by
      have := hsub.filter (fun p => decide (p.1 = q))
      rwa [hself] at this
    have hlen2 : ((L.insertionSort scoreDescRel).filter (fun p => decide (p.1 = q))).length
        = (L.filter (fun p => decide (p.1 = q))).length :=
      ((List.perm_insertionSort scoreDescRel L).filter _).length_eq
    exact (hsub2.eq_of_length hlen2.symm).symm
  · rw [hmain limit skip]
    rw [List.length_map, List.length_take, List.length_insertionSort, hlen]
  · intro hc
    rw [hmain limit skip]
    have : feedScored st cs u category subcategory developing rng now = [] := by
      rw [feedScored]
      simp [hc]
    rw [this]
    rfl

/-- C8 witness: the personalized path at a concrete store and user. -/
theorem C8_personalized_feed_witness :
    (c8user.interests.isEmpty = false)
    ∧ (getArticles c2store ⟨none, []⟩ none none none 20 3 (some c8user)
        (fun _ => false) 0).1
      = (((feedScored c2store ⟨none, []⟩ c8user none none none
          (fun _ => false) 0).insertionSort scoreDescRel).take 10).map
          (fun p => p.2) :=
  ⟨rfl, (C8_personalized_feed c2store ⟨none, []⟩ none none none 20 3 c8user
    (fun _ => false) 0 rfl).1⟩

end Chintan
